import Mathlib

/-!
# AP_Airspeed_EagleTree: sampler / reader accumulator

Shallow embedding of `libraries/AP_Airspeed/AP_Airspeed_EagleTree.cpp` and
`AP_Airspeed_EagleTree.h`.

* `uint32_t` fields are natural numbers, with `% 2^32` written wherever the
  C++ arithmetic can wrap (`airspeed_value_count++`, the `millis()` difference).
* The C++ `float` arithmetic is a parameter (`FloatModel`): the driver only
  uses the constant `0`, `+=`, `/` and the two integer-to-float conversions.
  `binary32` instantiates it with IEEE-754 single precision, round to nearest
  even, on the non-negative values (the only ones an accumulator that starts
  at zero can hold).
* The HAL collaborators (semaphore, I2C device, clock) are inputs of each
  call: the outcome of `sem->take`, the outcome and payload of
  `read_registers`, the value of `AP_HAL::millis()`. What a call does to them
  is recorded as a list of `Event`s.
-/

namespace EagleTree

/-! ## The arithmetic of `float` -/

/-- The operations on the C++ type `float` that the driver uses. -/
structure FloatModel where
  /-- The carrier: values of type `float`. -/
  F : Type
  /-- The literal `0` assigned to `airspeed_value_sum`. -/
  zero : F
  /-- The cast `(float)sample16` of a 16 bit unsigned integer. -/
  ofU16 : Nat → F
  /-- The conversion of the `uint32_t` divisor `airspeed_value_count`. -/
  ofU32 : Nat → F
  /-- The sum computed by `+=`. -/
  add : F → F → F
  /-- The quotient computed by `/`. -/
  div : F → F → F

/-! ## HAL constants and events -/

/-- Value of `EAGLETREE_AIRSPEED_I2C_ADDR`. -/
def EAGLETREE_AIRSPEED_I2C_ADDR : Nat := 0x75

/-- Value of `EAGLETREE_AIRSPEED_I2C_READ_CMD`. -/
def EAGLETREE_AIRSPEED_I2C_READ_CMD : Nat := 0x07

/-- Value of `EAGLETREE_AIRSPEED_CONVERSION_INTERVAL`, in microseconds. -/
def EAGLETREE_AIRSPEED_CONVERSION_INTERVAL : Nat := 1000000 / 100

/-- The timeout argument of `Semaphore::take`. -/
inductive Timeout where
  /-- The constant `HAL_SEMAPHORE_BLOCK_FOREVER`. -/
  | HAL_SEMAPHORE_BLOCK_FOREVER
  /-- A wait bounded by `n` milliseconds; `ms 0` is a request that does not
  wait, as `take_nonblocking()` makes. -/
  | ms (n : Nat)
  deriving DecidableEq, Repr

/-- The speed argument of `Device::set_speed`. -/
inductive Speed where
  | SPEED_HIGH
  | SPEED_LOW
  deriving DecidableEq, Repr

/-- One call made by the driver to a HAL collaborator, with its outcome. -/
inductive Event where
  /-- The call `hal.i2c_mgr->get_device(bus, addr)`; `ok` is "not null". -/
  | get_device (addr : Nat) (ok : Bool)
  /-- The call `dev->get_semaphore()->take(t)` and its result. -/
  | dev_sem_take (t : Timeout) (ok : Bool)
  /-- The call `dev->get_semaphore()->give()`. -/
  | dev_sem_give
  /-- The call `dev->set_speed(s)`. -/
  | set_speed (s : Speed)
  /-- The call `dev->set_retries(n)`. -/
  | set_retries (n : Nat)
  /-- The call `dev->register_periodic_callback(period_usec, timer)`; `ok` is
  whether the handle it returns is not null. -/
  | register_periodic_callback (period_usec : Nat) (ok : Bool)
  /-- The call `sem->take(t)` on the accumulator lock and its result. -/
  | sem_take (t : Timeout) (ok : Bool)
  /-- The call `sem->give()` on the accumulator lock. -/
  | sem_give
  /-- The call `dev->read_registers(reg, buf, len)` and its result. -/
  | read_registers (reg len : Nat) (ok : Bool)
  deriving DecidableEq, Repr

/-! ## Driver state -/

/-- The fields of `AP_Airspeed_EagleTree` that the sampler and the reader use. -/
structure Driver (fm : FloatModel) where
  airspeed_value_sum : fm.F
  airspeed_value_count : Nat
  last_sample_time_ms : Nat

/-- The empty accumulator: `sum = 0`, `count = 0`, last sample at time `t`. -/
def Driver.empty (fm : FloatModel) (t : Nat) : Driver fm :=
  { airspeed_value_sum := fm.zero, airspeed_value_count := 0, last_sample_time_ms := t }

/-! ## `init` -/

/-- The method `AP_Airspeed_EagleTree::init`.
`devOk` is whether `get_device` returns a handle, `devSemOk` the result of
`dev->get_semaphore()->take`, `regOk` whether `register_periodic_callback`
returns a handle (the code does not look at it). Returns the `bool` result and
the calls made; `init` writes none of `airspeed_value_sum`,
`airspeed_value_count`, `last_sample_time_ms`. -/
def init (devOk devSemOk regOk : Bool) : Bool × List Event :=
  if !devOk then
    (false, [Event.get_device EAGLETREE_AIRSPEED_I2C_ADDR false])
  else if !devSemOk then
    (false, [Event.get_device EAGLETREE_AIRSPEED_I2C_ADDR true,
             Event.dev_sem_take Timeout.HAL_SEMAPHORE_BLOCK_FOREVER false])
  else
    (true, [Event.get_device EAGLETREE_AIRSPEED_I2C_ADDR true,
            Event.dev_sem_take Timeout.HAL_SEMAPHORE_BLOCK_FOREVER true,
            Event.set_speed Speed.SPEED_LOW,
            Event.set_retries 2,
            Event.dev_sem_give,
            Event.register_periodic_callback EAGLETREE_AIRSPEED_CONVERSION_INTERVAL regOk,
            Event.sem_give])

/-! ## `timer` -/

/-- The expression `(uint16_t)(val[1] << 8 | val[0])` of `timer`. -/
def sample16 (val0 val1 : Nat) : Nat :=
  ((val1 <<< 8) ||| val0) % 2 ^ 16

/-- The method `AP_Airspeed_EagleTree::timer`.
`lockOk` is the result of `sem->take`, `rd` the outcome of `read_registers`
(`none`: the read failed; `some (val0, val1)`: the two bytes read), `now` the
value of `AP_HAL::millis()`. Returns the new state and the calls made. -/
def timer (fm : FloatModel) (s : Driver fm) (lockOk : Bool) (rd : Option (Nat × Nat))
    (now : Nat) : Driver fm × List Event :=
  if !lockOk then
    (s, [Event.sem_take Timeout.HAL_SEMAPHORE_BLOCK_FOREVER false])
  else
    match rd with
    | none =>
      (s, [Event.sem_take Timeout.HAL_SEMAPHORE_BLOCK_FOREVER true,
           Event.read_registers EAGLETREE_AIRSPEED_I2C_READ_CMD 2 false,
           Event.sem_give])
    | some (val0, val1) =>
      if sample16 val0 val1 = 0 then
        (s, [Event.sem_take Timeout.HAL_SEMAPHORE_BLOCK_FOREVER true,
             Event.read_registers EAGLETREE_AIRSPEED_I2C_READ_CMD 2 true,
             Event.sem_give])
      else
        ({ airspeed_value_sum := fm.add s.airspeed_value_sum (fm.ofU16 (sample16 val0 val1)),
           airspeed_value_count := (s.airspeed_value_count + 1) % 2 ^ 32,
           last_sample_time_ms := now },
         [Event.sem_take Timeout.HAL_SEMAPHORE_BLOCK_FOREVER true,
          Event.read_registers EAGLETREE_AIRSPEED_I2C_READ_CMD 2 true,
          Event.sem_give])

/-! ## `get_differential_pressure` and `get_temperature` -/

/-- The `uint32_t` difference `AP_HAL::millis() - last_sample_time_ms`. -/
def elapsed_ms (now last : Nat) : Nat :=
  (now % 2 ^ 32 + (2 ^ 32 - last % 2 ^ 32)) % 2 ^ 32

/-- What a query returns: the `bool` result, the caller's `float &` after the
call, the driver state after the call and the calls made. -/
structure QueryResult (fm : FloatModel) where
  ret : Bool
  out : fm.F
  state : Driver fm
  trace : List Event

/-- The method `AP_Airspeed_EagleTree::get_differential_pressure`.
`now` is the value of `AP_HAL::millis()`, `lockOk` the result of `sem->take`
(consulted only if the call gets that far), `_pressure` the caller's value
before the call. -/
def get_differential_pressure (fm : FloatModel) (s : Driver fm) (now : Nat) (lockOk : Bool)
    (_pressure : fm.F) : QueryResult fm :=
  if elapsed_ms now s.last_sample_time_ms > 100 then
    { ret := false, out := _pressure, state := s, trace := [] }
  else if !lockOk then
    { ret := false, out := _pressure, state := s,
      trace := [Event.sem_take Timeout.HAL_SEMAPHORE_BLOCK_FOREVER false] }
  else if s.airspeed_value_count > 0 then
    { ret := true,
      out := fm.div s.airspeed_value_sum (fm.ofU32 s.airspeed_value_count),
      state := { s with airspeed_value_count := 0, airspeed_value_sum := fm.zero },
      trace := [Event.sem_take Timeout.HAL_SEMAPHORE_BLOCK_FOREVER true, Event.sem_give] }
  else
    { ret := false, out := _pressure, state := s,
      trace := [Event.sem_take Timeout.HAL_SEMAPHORE_BLOCK_FOREVER true, Event.sem_give] }

/-- The method `AP_Airspeed_EagleTree::get_temperature`, whose body is
`return false;`. -/
def get_temperature (fm : FloatModel) (s : Driver fm) (temperature : fm.F) : QueryResult fm :=
  { ret := false, out := temperature, state := s, trace := [] }

/-! ## Sequences of calls -/

/-- A run of successful sampler calls: `timer` is called once per element
`((val0, val1), now)` of `samples`, each time obtaining the lock and reading
the two bytes `val0`, `val1` at clock value `now`. -/
def run_timer (fm : FloatModel) (s : Driver fm) (samples : List ((Nat × Nat) × Nat)) :
    Driver fm :=
  samples.foldl (fun st x => (timer fm st true (some x.1) x.2).1) s

/-- The decoded values of a run of sampler calls. -/
def decoded (samples : List ((Nat × Nat) × Nat)) : List Nat :=
  samples.map (fun x => sample16 x.1.1 x.1.2)

/-- The value of `airspeed_value_sum` after `+=` of each of `vs` in turn,
starting from `acc`. -/
def float_total (fm : FloatModel) (acc : fm.F) (vs : List Nat) : fm.F :=
  vs.foldl (fun a v => fm.add a (fm.ofU16 v)) acc

/-- State of the accumulator lock after a list of calls, starting from `held`:
`none` if the lock is taken while held or given while not held. -/
def lock_after (held : Bool) : List Event → Option Bool
  | [] => some held
  | Event.sem_take _ true :: tr => if held then none else lock_after true tr
  | Event.sem_give :: tr => if held then lock_after false tr else none
  | _ :: tr => lock_after held tr

/-- Number of successful `sem->take` calls in a list of calls. -/
def takes (tr : List Event) : Nat :=
  (tr.filter (fun e => match e with
    | Event.sem_take _ true => true
    | _ => false)).length

/-- Number of `sem->take` calls, successful or not, in a list of calls. -/
def take_attempts (tr : List Event) : Nat :=
  (tr.filter (fun e => match e with
    | Event.sem_take _ _ => true
    | _ => false)).length

/-- Number of `sem->give` calls in a list of calls. -/
def gives (tr : List Event) : Nat :=
  (tr.filter (fun e => match e with
    | Event.sem_give => true
    | _ => false)).length

/-- Number of `read_registers` calls in a list of calls. -/
def bus_reads (tr : List Event) : Nat :=
  (tr.filter (fun e => match e with
    | Event.read_registers _ _ _ => true
    | _ => false)).length

/-- The timeout arguments of the `sem->take` calls in a list of calls, in
order. -/
def take_modes : List Event → List Timeout
  | [] => []
  | Event.sem_take t _ :: tr => t :: take_modes tr
  | _ :: tr => take_modes tr

/-- Whether every `register_periodic_callback` in a list of calls is made while
the device semaphore is held, `held` telling whether it is held at the start. -/
def registers_while_held (held : Bool) : List Event → Bool
  | [] => true
  | Event.dev_sem_take _ true :: tr => registers_while_held true tr
  | Event.dev_sem_give :: tr => registers_while_held false tr
  | Event.register_periodic_callback _ _ :: tr => held && registers_while_held held tr
  | _ :: tr => registers_while_held held tr

/-! ## IEEE-754 single precision on the non-negative values

A finite non-negative binary32 value is a multiple of `2^-149` (the smallest
subnormal) below `2^128`, so it is held as a natural number of such units. -/

/-- Non-negative binary32 values: `fin n` is the finite value `n * 2^-149`. -/
inductive B32 where
  | fin (n : Nat)
  | inf
  | nan
  deriving DecidableEq, Repr

/-- The number of low bits that a quotient `q` loses when it is cut to 24
significant bits: the least `sh` at or above the starting one with
`q < 2^(24 + sh)`, searched upwards (`fuel` bounds the search). -/
def B32.shift_from (q : Nat) : Nat → Nat → Nat
  | 0, sh => sh
  | fuel + 1, sh => if q < 2 ^ (24 + sh) then sh else B32.shift_from q fuel (sh + 1)

/-- Round the non-negative rational `num / den` (in units of `2^-149`,
`den > 0`) to the nearest binary32 value, ties to the even significand: the
quotient keeps its 24 leading bits, the rest decides the rounding, and a result
of `2^128` or more is infinite. -/
def B32.round (num den : Nat) : B32 :=
  let q := num / den
  let sh := B32.shift_from q q 0
  let m := q / 2 ^ sh
  let rest := num - m * 2 ^ sh * den
  let half := 2 ^ sh * den
  let m1 := if 2 * rest < half then m
    else if half < 2 * rest then m + 1
    else if m % 2 = 0 then m else m + 1
  if m1 * 2 ^ sh < 2 ^ 128 * 2 ^ 149 then B32.fin (m1 * 2 ^ sh) else B32.inf

/-- Conversion of an unsigned integer to binary32. -/
def B32.ofNat (n : Nat) : B32 :=
  B32.round (n * 2 ^ 149) 1

/-- Sum of two non-negative binary32 values. -/
def B32.add : B32 → B32 → B32
  | B32.fin a, B32.fin b => B32.round (a + b) 1
  | B32.nan, _ => B32.nan
  | _, B32.nan => B32.nan
  | _, _ => B32.inf

/-- Quotient of two non-negative binary32 values. -/
def B32.div : B32 → B32 → B32
  | B32.fin a, B32.fin b =>
    if b = 0 then (if a = 0 then B32.nan else B32.inf) else B32.round (a * 2 ^ 149) b
  | B32.fin _, B32.inf => B32.fin 0
  | B32.inf, B32.fin _ => B32.inf
  | _, _ => B32.nan

/-- The `float` of the targets: binary32, round to nearest even. -/
def binary32 : FloatModel :=
  { F := B32, zero := B32.fin 0, ofU16 := B32.ofNat, ofU32 := B32.ofNat,
    add := B32.add, div := B32.div }

instance : DecidableEq binary32.F :=
  inferInstanceAs (DecidableEq B32)

/-! ## Interleavings of calls -/

/-- One call of the public or periodic interface of the driver, with the
outcomes of the collaborators it consults. -/
inductive Call (fm : FloatModel) where
  | timer (lockOk : Bool) (rd : Option (Nat × Nat)) (now : Nat)
  | get_differential_pressure (now : Nat) (lockOk : Bool) (_pressure : fm.F)
  | get_temperature (temperature : fm.F)

/-- The driver state after one call. -/
def step (fm : FloatModel) (s : Driver fm) : Call fm → Driver fm
  | Call.timer lockOk rd now => (timer fm s lockOk rd now).1
  | Call.get_differential_pressure now lockOk p =>
    (get_differential_pressure fm s now lockOk p).state
  | Call.get_temperature t => (get_temperature fm s t).state

/-- Bookkeeping for the invariant (not part of the driver): the nonzero samples
read by `timer` since the last query that returned `true`. A sampler call that
obtains the lock and reads a nonzero sample appends it; a query that returns
`true` empties the list; every other call leaves it alone. -/
def pending_step (fm : FloatModel) (s : Driver fm) (pend : List Nat) : Call fm → List Nat
  | Call.timer true (some (val0, val1)) _ =>
    if sample16 val0 val1 = 0 then pend else pend ++ [sample16 val0 val1]
  | Call.timer _ _ _ => pend
  | Call.get_differential_pressure now lockOk p =>
    if (get_differential_pressure fm s now lockOk p).ret then [] else pend
  | Call.get_temperature _ => pend

/-- The driver state and the pending samples after a list of calls. -/
def run (fm : FloatModel) : Driver fm × List Nat → List (Call fm) → Driver fm × List Nat
  | sp, [] => sp
  | sp, c :: cs => run fm (step fm sp.1 c, pending_step fm sp.1 sp.2 c) cs

/-- The accumulator invariant: `count` is the number of pending samples modulo
`2^32`, `sum` is their `float` total, and each of them is in `1..65535`. -/
def Invariant (fm : FloatModel) (sp : Driver fm × List Nat) : Prop :=
  sp.1.airspeed_value_count = sp.2.length % 2 ^ 32 ∧
  sp.1.airspeed_value_sum = float_total fm fm.zero sp.2 ∧
  ∀ v ∈ sp.2, 1 ≤ v ∧ v ≤ 65535

/-! ## Lemmas on `timer` and on runs of sampler calls -/

theorem sample16_eq (b0 b1 : Nat) (h0 : b0 < 256) (h1 : b1 < 256) :
    sample16 b0 b1 = b0 + 256 * b1 := by
  have h0p : b0 < 2 ^ 8 := by omega
  have hor : (b1 <<< 8) ||| b0 = 2 ^ 8 * b1 + b0 := by
    rw [Nat.shiftLeft_eq, Nat.mul_comm b1 (2 ^ 8)]
    exact (Nat.mul_add_lt_is_or h0p b1).symm
  unfold sample16
  rw [hor]
  omega

theorem timer_valid (fm : FloatModel) (s : Driver fm) (val0 val1 now : Nat)
    (h : sample16 val0 val1 ≠ 0) :
    (timer fm s true (some (val0, val1)) now).1 =
      { airspeed_value_sum := fm.add s.airspeed_value_sum (fm.ofU16 (sample16 val0 val1)),
        airspeed_value_count := (s.airspeed_value_count + 1) % 2 ^ 32,
        last_sample_time_ms := now } := by
  simp [timer, h]

theorem timer_zero (fm : FloatModel) (s : Driver fm) (val0 val1 now : Nat)
    (h : sample16 val0 val1 = 0) :
    (timer fm s true (some (val0, val1)) now).1 = s := by
  simp [timer, h]

theorem run_timer_cons (fm : FloatModel) (s : Driver fm) (x : (Nat × Nat) × Nat)
    (xs : List ((Nat × Nat) × Nat)) :
    run_timer fm s (x :: xs) = run_timer fm (timer fm s true (some x.1) x.2).1 xs := rfl

theorem run_timer_count (fm : FloatModel) (samples : List ((Nat × Nat) × Nat)) :
    ∀ s : Driver fm, s.airspeed_value_count < 2 ^ 32 →
      (∀ x ∈ samples, sample16 x.1.1 x.1.2 ≠ 0) →
      (run_timer fm s samples).airspeed_value_count =
        (s.airspeed_value_count + samples.length) % 2 ^ 32 := by
  induction samples with
  | nil =>
    intro s hs _
    simp only [run_timer, List.foldl_nil, List.length_nil, Nat.add_zero]
    exact (Nat.mod_eq_of_lt hs).symm
  | cons x xs ih =>
    intro s _ hnz
    have hx : sample16 x.1.1 x.1.2 ≠ 0 := hnz x (List.mem_cons_self x xs)
    have hxs : ∀ y ∈ xs, sample16 y.1.1 y.1.2 ≠ 0 :=
      fun y hy => hnz y (List.mem_cons_of_mem x hy)
    rw [run_timer_cons, ih _ _ hxs]
    · rw [timer_valid fm s x.1.1 x.1.2 x.2 hx]
      simp only [List.length_cons]
      omega
    · rw [timer_valid fm s x.1.1 x.1.2 x.2 hx]
      exact Nat.mod_lt _ (by decide)

theorem run_timer_sum (fm : FloatModel) (samples : List ((Nat × Nat) × Nat)) :
    ∀ s : Driver fm, (∀ x ∈ samples, sample16 x.1.1 x.1.2 ≠ 0) →
      (run_timer fm s samples).airspeed_value_sum =
        float_total fm s.airspeed_value_sum (decoded samples) := by
  induction samples with
  | nil =>
    intro s _
    rfl
  | cons x xs ih =>
    intro s hnz
    have hx : sample16 x.1.1 x.1.2 ≠ 0 := hnz x (List.mem_cons_self x xs)
    have hxs : ∀ y ∈ xs, sample16 y.1.1 y.1.2 ≠ 0 :=
      fun y hy => hnz y (List.mem_cons_of_mem x hy)
    rw [run_timer_cons, ih _ hxs, timer_valid fm s x.1.1 x.1.2 x.2 hx]
    rfl

theorem run_timer_zero (fm : FloatModel) (samples : List ((Nat × Nat) × Nat)) :
    ∀ s : Driver fm, (∀ x ∈ samples, sample16 x.1.1 x.1.2 = 0) →
      run_timer fm s samples = s := by
  induction samples with
  | nil =>
    intro s _
    rfl
  | cons x xs ih =>
    intro s hz
    have hx : sample16 x.1.1 x.1.2 = 0 := hz x (List.mem_cons_self x xs)
    have hxs : ∀ y ∈ xs, sample16 y.1.1 y.1.2 = 0 :=
      fun y hy => hz y (List.mem_cons_of_mem x hy)
    rw [run_timer_cons, ih _ hxs]
    exact timer_zero fm s x.1.1 x.1.2 x.2 hx

theorem run_timer_replicate_last (fm : FloatModel) (x : (Nat × Nat) × Nat)
    (hx : sample16 x.1.1 x.1.2 ≠ 0) (n : Nat) :
    ∀ s : Driver fm, s.last_sample_time_ms = x.2 →
      (run_timer fm s (List.replicate n x)).last_sample_time_ms = x.2 := by
  induction n with
  | zero =>
    intro s hs
    exact hs
  | succ n ih =>
    intro s _
    rw [List.replicate_succ, run_timer_cons]
    apply ih
    rw [timer_valid fm s x.1.1 x.1.2 x.2 hx]

theorem get_differential_pressure_fresh (fm : FloatModel) (s : Driver fm) (now : Nat)
    (p : fm.F) (hfresh : elapsed_ms now s.last_sample_time_ms ≤ 100)
    (hc : 0 < s.airspeed_value_count) :
    get_differential_pressure fm s now true p =
      { ret := true,
        out := fm.div s.airspeed_value_sum (fm.ofU32 s.airspeed_value_count),
        state := { s with airspeed_value_count := 0, airspeed_value_sum := fm.zero },
        trace := [Event.sem_take Timeout.HAL_SEMAPHORE_BLOCK_FOREVER true, Event.sem_give] } := by
  have h : ¬ elapsed_ms now s.last_sample_time_ms > 100 := by omega
  simp [get_differential_pressure, h, hc]

theorem get_differential_pressure_empty (fm : FloatModel) (s : Driver fm) (now : Nat)
    (p : fm.F) (hfresh : elapsed_ms now s.last_sample_time_ms ≤ 100)
    (hc : s.airspeed_value_count = 0) :
    get_differential_pressure fm s now true p =
      { ret := false, out := p, state := s,
        trace := [Event.sem_take Timeout.HAL_SEMAPHORE_BLOCK_FOREVER true, Event.sem_give] } := by
  have h : ¬ elapsed_ms now s.last_sample_time_ms > 100 := by omega
  simp [get_differential_pressure, h, hc]

/-! ## Lemmas on binary32 rounding and on the invariant -/

theorem shift_from_le (q k : Nat) (hq : q < 2 ^ (24 + k)) :
    ∀ fuel sh : Nat, sh ≤ k → B32.shift_from q fuel sh ≤ k := by
  intro fuel
  induction fuel with
  | zero =>
    intro sh hsh
    exact hsh
  | succ fuel ih =>
    intro sh hsh
    unfold B32.shift_from
    by_cases h : q < 2 ^ (24 + sh)
    · rw [if_pos h]
      exact hsh
    · rw [if_neg h]
      apply ih
      rcases Nat.lt_or_ge sh k with hlt | hge
      · exact hlt
      · have : sh = k := Nat.le_antisymm hsh hge
        subst this
        exact absurd hq h

theorem round_of_dvd (q : Nat) (hdvd : 2 ^ B32.shift_from q q 0 ∣ q)
    (hq : q < 2 ^ 128 * 2 ^ 149) :
    B32.round q 1 = B32.fin q := by
  have hm : q / 2 ^ B32.shift_from q q 0 * 2 ^ B32.shift_from q q 0 = q :=
    Nat.div_mul_cancel hdvd
  have hpos : 2 * 0 < 2 ^ B32.shift_from q q 0 := by
    rw [Nat.mul_zero]
    exact Nat.two_pow_pos _
  unfold B32.round
  simp only [Nat.div_one, Nat.mul_one, hm, Nat.sub_self]
  rw [if_pos hpos, hm, if_pos hq]

theorem round_exact (n : Nat) (h : n < 2 ^ 24) :
    B32.round (n * 2 ^ 149) 1 = B32.fin (n * 2 ^ 149) := by
  have hq : n * 2 ^ 149 < 2 ^ (24 + 149) := by
    rw [Nat.pow_add]
    exact Nat.mul_lt_mul_of_pos_right h (Nat.two_pow_pos _)
  have hle := shift_from_le (n * 2 ^ 149) 149 hq (n * 2 ^ 149) 0 (Nat.zero_le _)
  apply round_of_dvd (n * 2 ^ 149)
  · exact Dvd.dvd.mul_left (Nat.pow_dvd_pow 2 hle) n
  · calc n * 2 ^ 149 < 2 ^ 24 * 2 ^ 149 :=
          Nat.mul_lt_mul_of_pos_right h (Nat.two_pow_pos _)
      _ ≤ 2 ^ 128 * 2 ^ 149 :=
          Nat.mul_le_mul_right _ (Nat.pow_le_pow_right (by decide) (by decide))

theorem float_total_exact (vs : List Nat) :
    ∀ acc : Nat, acc + vs.sum < 2 ^ 24 →
      float_total binary32 (B32.fin (acc * 2 ^ 149)) vs =
        B32.fin ((acc + vs.sum) * 2 ^ 149) := by
  induction vs with
  | nil =>
    intro acc _
    simp [float_total]
  | cons v vs ih =>
    intro acc h
    rw [List.sum_cons] at h
    have hv : v < 2 ^ 24 := by omega
    have hav : acc + v < 2 ^ 24 := by omega
    have hstep : binary32.add (B32.fin (acc * 2 ^ 149)) (binary32.ofU16 v) =
        B32.fin ((acc + v) * 2 ^ 149) := by
      show B32.add (B32.fin (acc * 2 ^ 149)) (B32.ofNat v) = _
      unfold B32.ofNat
      rw [round_exact v hv]
      show B32.round (acc * 2 ^ 149 + v * 2 ^ 149) 1 = _
      rw [← Nat.add_mul]
      exact round_exact (acc + v) hav
    show float_total binary32 (binary32.add (B32.fin (acc * 2 ^ 149)) (binary32.ofU16 v)) vs = _
    rw [hstep, ih (acc + v) (by omega), List.sum_cons, Nat.add_assoc]

theorem get_differential_pressure_state (fm : FloatModel) (s : Driver fm) (now : Nat)
    (lockOk : Bool) (p : fm.F) :
    ((get_differential_pressure fm s now lockOk p).ret = true ∧
      (get_differential_pressure fm s now lockOk p).state =
        { s with airspeed_value_count := 0, airspeed_value_sum := fm.zero }) ∨
    ((get_differential_pressure fm s now lockOk p).ret = false ∧
      (get_differential_pressure fm s now lockOk p).state = s) := by
  unfold get_differential_pressure
  by_cases hg : elapsed_ms now s.last_sample_time_ms > 100
  · rw [if_pos hg]
    exact Or.inr ⟨rfl, rfl⟩
  · rw [if_neg hg]
    cases lockOk with
    | false => exact Or.inr ⟨rfl, rfl⟩
    | true =>
      by_cases hc : s.airspeed_value_count > 0
      · simp [hc]
      · simp [hc]

theorem invariant_step (fm : FloatModel) (sp : Driver fm × List Nat) (c : Call fm)
    (h : Invariant fm sp) :
    Invariant fm (step fm sp.1 c, pending_step fm sp.1 sp.2 c) := by
  obtain ⟨hc, hs, hv⟩ := h
  cases c with
  | timer lockOk rd now =>
    cases lockOk with
    | false => exact ⟨hc, hs, hv⟩
    | true =>
      cases rd with
      | none => exact ⟨hc, hs, hv⟩
      | some b =>
        obtain ⟨val0, val1⟩ := b
        by_cases hz : sample16 val0 val1 = 0
        · simp only [step, pending_step, if_pos hz, timer_zero fm sp.1 val0 val1 now hz]
          exact ⟨hc, hs, hv⟩
        · simp only [step, pending_step, if_neg hz, timer_valid fm sp.1 val0 val1 now hz]
          refine ⟨?_, ?_, ?_⟩
          · simp only [List.length_append, List.length_singleton]
            rw [hc]
            omega
          · simp only [float_total, List.foldl_append, List.foldl_cons, List.foldl_nil]
            rw [hs]
            rfl
          · intro v hmem
            rcases List.mem_append.mp hmem with h1 | h1
            · exact hv v h1
            · have hlt : sample16 val0 val1 < 2 ^ 16 := Nat.mod_lt _ (by decide)
              have hv1 : v = sample16 val0 val1 := List.mem_singleton.mp h1
              omega
  | get_differential_pressure now lockOk p =>
    rcases get_differential_pressure_state fm sp.1 now lockOk p with ⟨hr, hst⟩ | ⟨hr, hst⟩
    · simp only [step, pending_step, hr, hst, if_true]
      exact ⟨rfl, rfl, fun v hmem => absurd hmem (List.not_mem_nil v)⟩
    · simp only [step, pending_step, hr, hst]
      exact ⟨hc, hs, hv⟩
  | get_temperature t => exact ⟨hc, hs, hv⟩

theorem invariant_run (fm : FloatModel) (calls : List (Call fm)) :
    ∀ sp : Driver fm × List Nat, Invariant fm sp → Invariant fm (run fm sp calls) := by
  induction calls with
  | nil =>
    intro sp h
    exact h
  | cons c cs ih =>
    intro sp h
    exact ih _ (invariant_step fm sp c h)

theorem invariant_empty (fm : FloatModel) (t0 : Nat) :
    Invariant fm (Driver.empty fm t0, []) :=
  ⟨rfl, rfl, fun v hmem => absurd hmem (List.not_mem_nil v)⟩

/-! ## Lemmas for the gate and for bounds on the mean -/

theorem get_differential_pressure_stale (fm : FloatModel) (s : Driver fm) (now : Nat)
    (lockOk : Bool) (p : fm.F) (hstale : 100 < elapsed_ms now s.last_sample_time_ms) :
    get_differential_pressure fm s now lockOk p =
      { ret := false, out := p, state := s, trace := [] } := by
  simp [get_differential_pressure, hstale]

theorem get_differential_pressure_not_obtained (fm : FloatModel) (s : Driver fm) (now : Nat)
    (p : fm.F) (hfresh : elapsed_ms now s.last_sample_time_ms ≤ 100) :
    get_differential_pressure fm s now false p =
      { ret := false, out := p, state := s,
        trace := [Event.sem_take Timeout.HAL_SEMAPHORE_BLOCK_FOREVER false] } := by
  have h : ¬ elapsed_ms now s.last_sample_time_ms > 100 := by omega
  simp [get_differential_pressure, h]

/-- C1 (counterexample): after `2^32` sampler calls that each obtain the lock
and read the nonzero sample `1`, `airspeed_value_count` has wrapped to zero, and
a query inside the staleness window that obtains the lock returns `false`. -/
theorem C1_count_wraps_query_invalid :
    1 ≤ (List.replicate (2 ^ 32) (((1, 0), 0) : (Nat × Nat) × Nat)).length ∧
    (∀ x ∈ List.replicate (2 ^ 32) (((1, 0), 0) : (Nat × Nat) × Nat),
      sample16 x.1.1 x.1.2 ≠ 0) ∧
    elapsed_ms 0 (run_timer binary32 (Driver.empty binary32 0)
      (List.replicate (2 ^ 32) ((1, 0), 0))).last_sample_time_ms ≤ 100 ∧
    (get_differential_pressure binary32 (run_timer binary32 (Driver.empty binary32 0)
      (List.replicate (2 ^ 32) ((1, 0), 0))) 0 true (B32.fin 0)).ret = false := by
  have hnz : ∀ x ∈ List.replicate (2 ^ 32) (((1, 0), 0) : (Nat × Nat) × Nat),
      sample16 x.1.1 x.1.2 ≠ 0 := by
    intro x hx
    rw [List.eq_of_mem_replicate hx]
    decide
  have hlast := run_timer_replicate_last binary32 ((1, 0), 0) (by decide) (2 ^ 32)
    (Driver.empty binary32 0) rfl
  have hcount := run_timer_count binary32 (List.replicate (2 ^ 32) ((1, 0), 0))
    (Driver.empty binary32 0) (by decide) hnz
  have hc0 : (run_timer binary32 (Driver.empty binary32 0)
      (List.replicate (2 ^ 32) ((1, 0), 0))).airspeed_value_count = 0 := by
    rw [hcount, List.length_replicate]
    rfl
  have hfresh : elapsed_ms 0 (run_timer binary32 (Driver.empty binary32 0)
      (List.replicate (2 ^ 32) ((1, 0), 0))).last_sample_time_ms ≤ 100 := by
    rw [hlast]
    decide
  refine ⟨?_, hnz, hfresh, ?_⟩
  · rw [List.length_replicate]
    decide
  · rw [get_differential_pressure_empty binary32 _ 0 (B32.fin 0) hfresh hc0]

/-- C1 (amended): for `1 ≤ n < 2^32` sampler calls from the empty accumulator,
each obtaining the lock and reading a nonzero sample, a query that passes the
staleness gate and obtains the lock returns `true`, writes the `float` quotient
of the accumulated `float` sum `v1 + ... + vn` by `n`, and leaves `sum = 0` and
`count = 0`. -/
theorem C1_drain_returns_mean (fm : FloatModel) (t0 : Nat)
    (samples : List ((Nat × Nat) × Nat)) (now : Nat) (p : fm.F)
    (hn : 1 ≤ samples.length) (hlt : samples.length < 2 ^ 32)
    (hnz : ∀ x ∈ samples, sample16 x.1.1 x.1.2 ≠ 0)
    (hfresh : elapsed_ms now
      (run_timer fm (Driver.empty fm t0) samples).last_sample_time_ms ≤ 100) :
    (get_differential_pressure fm (run_timer fm (Driver.empty fm t0) samples)
      now true p).ret = true ∧
    (get_differential_pressure fm (run_timer fm (Driver.empty fm t0) samples)
      now true p).out =
        fm.div (float_total fm fm.zero (decoded samples)) (fm.ofU32 samples.length) ∧
    (get_differential_pressure fm (run_timer fm (Driver.empty fm t0) samples)
      now true p).state.airspeed_value_sum = fm.zero ∧
    (get_differential_pressure fm (run_timer fm (Driver.empty fm t0) samples)
      now true p).state.airspeed_value_count = 0 := by
  have h0 : (Driver.empty fm t0).airspeed_value_count < 2 ^ 32 :=
    Nat.pos_of_ne_zero (by decide)
  have hcount := run_timer_count fm samples (Driver.empty fm t0) h0 hnz
  have hsum := run_timer_sum fm samples (Driver.empty fm t0) hnz
  have hc : (run_timer fm (Driver.empty fm t0) samples).airspeed_value_count =
      samples.length := by
    rw [hcount]
    simp only [Driver.empty, Nat.zero_add]
    exact Nat.mod_eq_of_lt hlt
  have hpos : 0 < (run_timer fm (Driver.empty fm t0) samples).airspeed_value_count := by
    omega
  rw [get_differential_pressure_fresh fm _ now p hfresh hpos, hc, hsum]
  exact ⟨rfl, rfl, rfl, rfl⟩

/-- Witness of C1 (amended): two samples, `1` then `2`, read at 0 ms and 5 ms,
and a query at 50 ms. -/
theorem C1_drain_returns_mean_witness :
    (1 ≤ [(((1, 0), 0) : (Nat × Nat) × Nat), ((2, 0), 5)].length ∧
     [(((1, 0), 0) : (Nat × Nat) × Nat), ((2, 0), 5)].length < 2 ^ 32 ∧
     (∀ x ∈ [(((1, 0), 0) : (Nat × Nat) × Nat), ((2, 0), 5)], sample16 x.1.1 x.1.2 ≠ 0) ∧
     elapsed_ms 50 (run_timer binary32 (Driver.empty binary32 0)
       [((1, 0), 0), ((2, 0), 5)]).last_sample_time_ms ≤ 100) ∧
    ((get_differential_pressure binary32 (run_timer binary32 (Driver.empty binary32 0)
      [((1, 0), 0), ((2, 0), 5)]) 50 true (B32.fin 0)).ret = true ∧
    (get_differential_pressure binary32 (run_timer binary32 (Driver.empty binary32 0)
      [((1, 0), 0), ((2, 0), 5)]) 50 true (B32.fin 0)).out =
        binary32.div (float_total binary32 binary32.zero (decoded [((1, 0), 0), ((2, 0), 5)]))
          (binary32.ofU32 [(((1, 0), 0) : (Nat × Nat) × Nat), ((2, 0), 5)].length) ∧
    (get_differential_pressure binary32 (run_timer binary32 (Driver.empty binary32 0)
      [((1, 0), 0), ((2, 0), 5)]) 50 true (B32.fin 0)).state.airspeed_value_sum =
        binary32.zero ∧
    (get_differential_pressure binary32 (run_timer binary32 (Driver.empty binary32 0)
      [((1, 0), 0), ((2, 0), 5)]) 50 true (B32.fin 0)).state.airspeed_value_count = 0) :=
  ⟨⟨by decide, by decide, by decide, by decide⟩,
    C1_drain_returns_mean binary32 0 [((1, 0), 0), ((2, 0), 5)] 50 (B32.fin 0)
      (by decide) (by decide) (by decide) (by decide)⟩

/-- C2: whatever the accumulator holds, when the `uint32_t` difference
`millis() - last_sample_time_ms` exceeds 100 the query returns `false` without
any call on the accumulator lock, and leaves the state and the caller's value
as they were. -/
theorem C2_stale_query_invalid (fm : FloatModel) (s : Driver fm) (now : Nat) (lockOk : Bool)
    (p : fm.F) (hstale : 100 < elapsed_ms now s.last_sample_time_ms) :
    get_differential_pressure fm s now lockOk p =
      { ret := false, out := p, state := s, trace := [] } ∧
    take_attempts (get_differential_pressure fm s now lockOk p).trace = 0 := by
  have h : get_differential_pressure fm s now lockOk p =
      { ret := false, out := p, state := s, trace := [] } := by
    simp [get_differential_pressure, hstale]
  rw [h]
  exact ⟨rfl, rfl⟩

/-- Witness of C2: three samples are waiting (`count = 3`), the last one was
taken at 1000 ms and the query comes at 1101 ms. -/
theorem C2_stale_query_invalid_witness :
    100 < elapsed_ms 1101 1000 ∧
    (get_differential_pressure binary32 (Driver.mk (B32.ofNat 30) 3 1000) 1101 true
        (B32.fin 0) =
      QueryResult.mk false (B32.fin 0) (Driver.mk (B32.ofNat 30) 3 1000) [] ∧
    take_attempts (get_differential_pressure binary32 (Driver.mk (B32.ofNat 30) 3 1000)
        1101 true (B32.fin 0)).trace = 0) :=
  ⟨by decide,
    C2_stale_query_invalid binary32 (Driver.mk (B32.ofNat 30) 3 1000) 1101 true (B32.fin 0)
      (by decide)⟩

/-- C3: with `count == 0`, a query that passes the staleness gate and obtains
the lock returns `false`, leaves the caller's value and the state as they were,
and its calls on the lock are one `take` followed by one `give`. -/
theorem C3_empty_query_invalid (fm : FloatModel) (s : Driver fm) (now : Nat) (p : fm.F)
    (hfresh : elapsed_ms now s.last_sample_time_ms ≤ 100)
    (hc : s.airspeed_value_count = 0) :
    (get_differential_pressure fm s now true p).ret = false ∧
    (get_differential_pressure fm s now true p).out = p ∧
    (get_differential_pressure fm s now true p).state = s ∧
    (get_differential_pressure fm s now true p).trace =
      [Event.sem_take Timeout.HAL_SEMAPHORE_BLOCK_FOREVER true, Event.sem_give] ∧
    lock_after false (get_differential_pressure fm s now true p).trace = some false := by
  rw [get_differential_pressure_empty fm s now p hfresh hc]
  exact ⟨rfl, rfl, rfl, rfl, rfl⟩

/-- Witness of C3: an empty accumulator whose last sample is 40 ms old; the
caller's value is 7 before and after the call. -/
theorem C3_empty_query_invalid_witness :
    (elapsed_ms 1040 ((Driver.empty binary32 1000).last_sample_time_ms) ≤ 100 ∧
     (Driver.empty binary32 1000).airspeed_value_count = 0) ∧
    ((get_differential_pressure binary32 (Driver.empty binary32 1000) 1040 true
        (B32.ofNat 7)).ret = false ∧
    (get_differential_pressure binary32 (Driver.empty binary32 1000) 1040 true
        (B32.ofNat 7)).out = B32.ofNat 7 ∧
    (get_differential_pressure binary32 (Driver.empty binary32 1000) 1040 true
        (B32.ofNat 7)).state = Driver.empty binary32 1000 ∧
    (get_differential_pressure binary32 (Driver.empty binary32 1000) 1040 true
        (B32.ofNat 7)).trace =
      [Event.sem_take Timeout.HAL_SEMAPHORE_BLOCK_FOREVER true, Event.sem_give] ∧
    lock_after false (get_differential_pressure binary32 (Driver.empty binary32 1000) 1040
        true (B32.ofNat 7)).trace = some false) :=
  ⟨⟨by decide, by decide⟩,
    C3_empty_query_invalid binary32 (Driver.empty binary32 1000) 1040 (B32.ofNat 7)
      (by decide) (by decide)⟩

/-- C4 (counterexample): after `2^32` successful nonzero sampler calls the
count has wrapped to zero, and both of two consecutive queries inside the
staleness window return `false`: the first one drains nothing. -/
theorem C4_count_wraps_both_queries_invalid :
    1 ≤ (List.replicate (2 ^ 32) (((3, 0), 9) : (Nat × Nat) × Nat)).length ∧
    (∀ x ∈ List.replicate (2 ^ 32) (((3, 0), 9) : (Nat × Nat) × Nat),
      sample16 x.1.1 x.1.2 ≠ 0) ∧
    elapsed_ms 10 (run_timer binary32 (Driver.empty binary32 9)
      (List.replicate (2 ^ 32) ((3, 0), 9))).last_sample_time_ms ≤ 100 ∧
    elapsed_ms 11 (run_timer binary32 (Driver.empty binary32 9)
      (List.replicate (2 ^ 32) ((3, 0), 9))).last_sample_time_ms ≤ 100 ∧
    (get_differential_pressure binary32 (run_timer binary32 (Driver.empty binary32 9)
      (List.replicate (2 ^ 32) ((3, 0), 9))) 10 true (B32.fin 0)).ret = false ∧
    (get_differential_pressure binary32
      (get_differential_pressure binary32 (run_timer binary32 (Driver.empty binary32 9)
        (List.replicate (2 ^ 32) ((3, 0), 9))) 10 true (B32.fin 0)).state
      11 true (B32.fin 0)).ret = false := by
  have hnz : ∀ x ∈ List.replicate (2 ^ 32) (((3, 0), 9) : (Nat × Nat) × Nat),
      sample16 x.1.1 x.1.2 ≠ 0 := by
    intro x hx
    rw [List.eq_of_mem_replicate hx]
    decide
  have hlast := run_timer_replicate_last binary32 ((3, 0), 9) (by decide) (2 ^ 32)
    (Driver.empty binary32 9) rfl
  have hcount := run_timer_count binary32 (List.replicate (2 ^ 32) ((3, 0), 9))
    (Driver.empty binary32 9) (by decide) hnz
  have hc0 : (run_timer binary32 (Driver.empty binary32 9)
      (List.replicate (2 ^ 32) ((3, 0), 9))).airspeed_value_count = 0 := by
    rw [hcount, List.length_replicate]
    rfl
  have hfresh1 : elapsed_ms 10 (run_timer binary32 (Driver.empty binary32 9)
      (List.replicate (2 ^ 32) ((3, 0), 9))).last_sample_time_ms ≤ 100 := by
    rw [hlast]
    decide
  have hfresh2 : elapsed_ms 11 (run_timer binary32 (Driver.empty binary32 9)
      (List.replicate (2 ^ 32) ((3, 0), 9))).last_sample_time_ms ≤ 100 := by
    rw [hlast]
    decide
  refine ⟨?_, hnz, hfresh1, hfresh2, ?_, ?_⟩
  · rw [List.length_replicate]
    decide
  · rw [get_differential_pressure_empty binary32 _ 10 (B32.fin 0) hfresh1 hc0]
  · rw [get_differential_pressure_empty binary32 _ 10 (B32.fin 0) hfresh1 hc0]
    show (get_differential_pressure binary32 _ 11 true (B32.fin 0)).ret = false
    rw [get_differential_pressure_empty binary32 _ 11 (B32.fin 0) hfresh2 hc0]

/-- C4 (amended): for `1 ≤ N < 2^32` successful nonzero sampler calls from the
empty accumulator, two consecutive queries inside the staleness window, each
obtaining the lock and with no sampler call between them, give `true` with the
`float` mean of the `N` samples on the first call, and `false` with the
caller's value untouched on the second. -/
theorem C4_single_drain (fm : FloatModel) (t0 : Nat) (samples : List ((Nat × Nat) × Nat))
    (now1 now2 : Nat) (p1 p2 : fm.F)
    (hn : 1 ≤ samples.length) (hlt : samples.length < 2 ^ 32)
    (hnz : ∀ x ∈ samples, sample16 x.1.1 x.1.2 ≠ 0)
    (hfresh1 : elapsed_ms now1
      (run_timer fm (Driver.empty fm t0) samples).last_sample_time_ms ≤ 100)
    (hfresh2 : elapsed_ms now2
      (run_timer fm (Driver.empty fm t0) samples).last_sample_time_ms ≤ 100) :
    (get_differential_pressure fm (run_timer fm (Driver.empty fm t0) samples)
      now1 true p1).ret = true ∧
    (get_differential_pressure fm (run_timer fm (Driver.empty fm t0) samples)
      now1 true p1).out =
        fm.div (float_total fm fm.zero (decoded samples)) (fm.ofU32 samples.length) ∧
    (get_differential_pressure fm
      (get_differential_pressure fm (run_timer fm (Driver.empty fm t0) samples)
        now1 true p1).state now2 true p2).ret = false ∧
    (get_differential_pressure fm
      (get_differential_pressure fm (run_timer fm (Driver.empty fm t0) samples)
        now1 true p1).state now2 true p2).out = p2 := by
  have h0 : (Driver.empty fm t0).airspeed_value_count < 2 ^ 32 :=
    Nat.pos_of_ne_zero (by decide)
  have hcount := run_timer_count fm samples (Driver.empty fm t0) h0 hnz
  have hsum := run_timer_sum fm samples (Driver.empty fm t0) hnz
  have hc : (run_timer fm (Driver.empty fm t0) samples).airspeed_value_count =
      samples.length := by
    rw [hcount]
    simp only [Driver.empty, Nat.zero_add]
    exact Nat.mod_eq_of_lt hlt
  have hpos : 0 < (run_timer fm (Driver.empty fm t0) samples).airspeed_value_count := by
    omega
  rw [get_differential_pressure_fresh fm _ now1 p1 hfresh1 hpos, hc, hsum]
  have h2 := get_differential_pressure_empty fm
    { airspeed_value_sum := fm.zero, airspeed_value_count := 0,
      last_sample_time_ms :=
        (run_timer fm (Driver.empty fm t0) samples).last_sample_time_ms }
    now2 p2 hfresh2 rfl
  exact ⟨rfl, rfl, congrArg QueryResult.ret h2, congrArg QueryResult.out h2⟩

/-- Witness of C4 (amended): samples `1` and `2` read at 0 ms and 5 ms, then
queries at 50 ms and 60 ms. -/
theorem C4_single_drain_witness :
    (1 ≤ [(((1, 0), 0) : (Nat × Nat) × Nat), ((2, 0), 5)].length ∧
     [(((1, 0), 0) : (Nat × Nat) × Nat), ((2, 0), 5)].length < 2 ^ 32 ∧
     (∀ x ∈ [(((1, 0), 0) : (Nat × Nat) × Nat), ((2, 0), 5)], sample16 x.1.1 x.1.2 ≠ 0) ∧
     elapsed_ms 50 (run_timer binary32 (Driver.empty binary32 0)
       [((1, 0), 0), ((2, 0), 5)]).last_sample_time_ms ≤ 100 ∧
     elapsed_ms 60 (run_timer binary32 (Driver.empty binary32 0)
       [((1, 0), 0), ((2, 0), 5)]).last_sample_time_ms ≤ 100) ∧
    ((get_differential_pressure binary32 (run_timer binary32 (Driver.empty binary32 0)
      [((1, 0), 0), ((2, 0), 5)]) 50 true (B32.fin 0)).ret = true ∧
    (get_differential_pressure binary32 (run_timer binary32 (Driver.empty binary32 0)
      [((1, 0), 0), ((2, 0), 5)]) 50 true (B32.fin 0)).out =
        binary32.div (float_total binary32 binary32.zero (decoded [((1, 0), 0), ((2, 0), 5)]))
          (binary32.ofU32 [(((1, 0), 0) : (Nat × Nat) × Nat), ((2, 0), 5)].length) ∧
    (get_differential_pressure binary32
      (get_differential_pressure binary32 (run_timer binary32 (Driver.empty binary32 0)
        [((1, 0), 0), ((2, 0), 5)]) 50 true (B32.fin 0)).state 60 true (B32.ofNat 9)).ret =
        false ∧
    (get_differential_pressure binary32
      (get_differential_pressure binary32 (run_timer binary32 (Driver.empty binary32 0)
        [((1, 0), 0), ((2, 0), 5)]) 50 true (B32.fin 0)).state 60 true (B32.ofNat 9)).out =
        B32.ofNat 9) :=
  ⟨⟨by decide, by decide, by decide, by decide, by decide⟩,
    C4_single_drain binary32 0 [((1, 0), 0), ((2, 0), 5)] 50 60 (B32.fin 0) (B32.ofNat 9)
      (by decide) (by decide) (by decide) (by decide) (by decide)⟩

/-- C5: any number of sampler calls that obtain the lock and read a payload
decoding to 0 leave `sum`, `count` and `last_sample_time_ms` exactly as they
were; each such call makes one `take`, one bus read and one `give`. -/
theorem C5_zero_samples_noop (fm : FloatModel) (s : Driver fm)
    (samples : List ((Nat × Nat) × Nat))
    (hz : ∀ x ∈ samples, sample16 x.1.1 x.1.2 = 0) :
    run_timer fm s samples = s ∧
    ∀ x ∈ samples, timer fm s true (some x.1) x.2 =
      (s, [Event.sem_take Timeout.HAL_SEMAPHORE_BLOCK_FOREVER true,
           Event.read_registers EAGLETREE_AIRSPEED_I2C_READ_CMD 2 true,
           Event.sem_give]) := by
  refine ⟨run_timer_zero fm samples s hz, ?_⟩
  intro x hx
  have h := hz x hx
  simp [timer, h]

/-- Witness of C5: three all-zero payloads on an accumulator holding three
samples. -/
theorem C5_zero_samples_noop_witness :
    (∀ x ∈ [(((0, 0), 7) : (Nat × Nat) × Nat), ((0, 0), 17), ((0, 0), 27)],
      sample16 x.1.1 x.1.2 = 0) ∧
    (run_timer binary32 (Driver.mk (B32.ofNat 30) 3 1000)
        [((0, 0), 7), ((0, 0), 17), ((0, 0), 27)] = Driver.mk (B32.ofNat 30) 3 1000 ∧
    ∀ x ∈ [(((0, 0), 7) : (Nat × Nat) × Nat), ((0, 0), 17), ((0, 0), 27)],
      timer binary32 (Driver.mk (B32.ofNat 30) 3 1000) true (some x.1) x.2 =
        (Driver.mk (B32.ofNat 30) 3 1000,
          [Event.sem_take Timeout.HAL_SEMAPHORE_BLOCK_FOREVER true,
           Event.read_registers EAGLETREE_AIRSPEED_I2C_READ_CMD 2 true,
           Event.sem_give])) :=
  ⟨by decide,
    C5_zero_samples_noop binary32 (Driver.mk (B32.ofNat 30) 3 1000)
      [((0, 0), 7), ((0, 0), 17), ((0, 0), 27)] (by decide)⟩

/-- C6 (counterexample): 257 sampler calls from the empty accumulator, each
obtaining the lock and reading `0xFFFF`, leave 257 pending samples whose exact
total is 16842495, while `airspeed_value_sum` holds 16842496: the total is past
`2^24` and the `float` sum has been rounded. -/
theorem C6_float_sum_not_exact :
    (run binary32 (Driver.empty binary32 0, [])
      (List.replicate 257 (Call.timer true (some (255, 255)) 0))).2 =
        List.replicate 257 65535 ∧
    (run binary32 (Driver.empty binary32 0, [])
      (List.replicate 257 (Call.timer true (some (255, 255)) 0))).1.airspeed_value_count =
        257 ∧
    (List.replicate 257 65535).sum = 16842495 ∧
    (run binary32 (Driver.empty binary32 0, [])
      (List.replicate 257 (Call.timer true (some (255, 255)) 0))).1.airspeed_value_sum =
        B32.fin (16842496 * 2 ^ 149) ∧
    (run binary32 (Driver.empty binary32 0, [])
      (List.replicate 257 (Call.timer true (some (255, 255)) 0))).1.airspeed_value_sum ≠
        B32.fin (16842495 * 2 ^ 149) := by
  decide!

/-- C6 (amended): in every state reachable from the empty accumulator by a
finite sequence of `timer`, `get_differential_pressure` and `get_temperature`
calls with arbitrary lock, bus and clock outcomes, `count` is the number of
samples pending since the last successful drain modulo `2^32`, each pending
sample is in `1..65535`, `sum` is their total accumulated in `float`, which is
their exact total whenever that total is below `2^24`; and when fewer than
`2^32` samples are pending, `count == 0` implies `sum == 0`. -/
theorem C6_accumulator_invariant (t0 : Nat) (calls : List (Call binary32)) :
    (run binary32 (Driver.empty binary32 t0, []) calls).1.airspeed_value_count =
      (run binary32 (Driver.empty binary32 t0, []) calls).2.length % 2 ^ 32 ∧
    (run binary32 (Driver.empty binary32 t0, []) calls).1.airspeed_value_sum =
      float_total binary32 binary32.zero (run binary32 (Driver.empty binary32 t0, []) calls).2 ∧
    (∀ v ∈ (run binary32 (Driver.empty binary32 t0, []) calls).2, 1 ≤ v ∧ v ≤ 65535) ∧
    ((run binary32 (Driver.empty binary32 t0, []) calls).2.sum < 2 ^ 24 →
      (run binary32 (Driver.empty binary32 t0, []) calls).1.airspeed_value_sum =
        B32.fin ((run binary32 (Driver.empty binary32 t0, []) calls).2.sum * 2 ^ 149)) ∧
    ((run binary32 (Driver.empty binary32 t0, []) calls).2.length < 2 ^ 32 →
      (run binary32 (Driver.empty binary32 t0, []) calls).1.airspeed_value_count = 0 →
      (run binary32 (Driver.empty binary32 t0, []) calls).1.airspeed_value_sum =
        B32.fin 0) := by
  obtain ⟨hc, hs, hv⟩ := invariant_run binary32 calls _ (invariant_empty binary32 t0)
  refine ⟨hc, hs, hv, ?_, ?_⟩
  · intro hlt
    rw [hs]
    have h := float_total_exact (run binary32 (Driver.empty binary32 t0, []) calls).2 0
      (by omega)
    simp only [Nat.zero_mul, Nat.zero_add] at h
    exact h
  · intro hlen h0
    rw [hc, Nat.mod_eq_of_lt hlen] at h0
    rw [hs, List.length_eq_zero.mp h0]
    rfl

/-- Witness of C6 (amended): first a run with a skipped cycle, a failed read, a
zero sample, a stale query and two valid samples `10` and `20` left pending;
then the same run followed by a successful drain. -/
theorem C6_accumulator_invariant_witness :
    ((run binary32 (Driver.empty binary32 0, [])
        [Call.timer true (some (10, 0)) 1, Call.timer false (some (30, 0)) 11,
         Call.timer true none 21, Call.timer true (some (0, 0)) 31,
         Call.get_differential_pressure 500 true (B32.fin 0),
         Call.get_temperature (B32.fin 0), Call.timer true (some (20, 0)) 41]).2 = [10, 20] ∧
     (run binary32 (Driver.empty binary32 0, [])
        [Call.timer true (some (10, 0)) 1, Call.timer false (some (30, 0)) 11,
         Call.timer true none 21, Call.timer true (some (0, 0)) 31,
         Call.get_differential_pressure 500 true (B32.fin 0),
         Call.get_temperature (B32.fin 0), Call.timer true (some (20, 0)) 41]).2.sum < 2 ^ 24 ∧
     (run binary32 (Driver.empty binary32 0, [])
        [Call.timer true (some (10, 0)) 1, Call.timer true (some (20, 0)) 41,
         Call.get_differential_pressure 50 true (B32.fin 0)]).2.length < 2 ^ 32 ∧
     (run binary32 (Driver.empty binary32 0, [])
        [Call.timer true (some (10, 0)) 1, Call.timer true (some (20, 0)) 41,
         Call.get_differential_pressure 50 true (B32.fin 0)]).1.airspeed_value_count = 0) ∧
    ((run binary32 (Driver.empty binary32 0, [])
        [Call.timer true (some (10, 0)) 1, Call.timer false (some (30, 0)) 11,
         Call.timer true none 21, Call.timer true (some (0, 0)) 31,
         Call.get_differential_pressure 500 true (B32.fin 0),
         Call.get_temperature (B32.fin 0),
         Call.timer true (some (20, 0)) 41]).1.airspeed_value_sum =
       B32.fin ((run binary32 (Driver.empty binary32 0, [])
        [Call.timer true (some (10, 0)) 1, Call.timer false (some (30, 0)) 11,
         Call.timer true none 21, Call.timer true (some (0, 0)) 31,
         Call.get_differential_pressure 500 true (B32.fin 0),
         Call.get_temperature (B32.fin 0),
         Call.timer true (some (20, 0)) 41]).2.sum * 2 ^ 149) ∧
     (run binary32 (Driver.empty binary32 0, [])
        [Call.timer true (some (10, 0)) 1, Call.timer true (some (20, 0)) 41,
         Call.get_differential_pressure 50 true (B32.fin 0)]).1.airspeed_value_sum =
       B32.fin 0) :=
  ⟨⟨by decide, by decide, by decide, by decide⟩,
    (C6_accumulator_invariant 0
        [Call.timer true (some (10, 0)) 1, Call.timer false (some (30, 0)) 11,
         Call.timer true none 21, Call.timer true (some (0, 0)) 31,
         Call.get_differential_pressure 500 true (B32.fin 0),
         Call.get_temperature (B32.fin 0),
         Call.timer true (some (20, 0)) 41]).2.2.2.1 (by decide),
    (C6_accumulator_invariant 0
        [Call.timer true (some (10, 0)) 1, Call.timer true (some (20, 0)) 41,
         Call.get_differential_pressure 50 true (B32.fin 0)]).2.2.2.2
      (by decide) (by decide)⟩

/-- C7: when `timer` obtains the lock and `read_registers` fails, the state
(`sum`, `count`, `last_sample_time_ms`) is unchanged, the calls made are one
`take`, one bus read of 2 bytes at the read command and one `give`, and the
lock is free on return. -/
theorem C7_read_failure_no_change (fm : FloatModel) (s : Driver fm) (now : Nat) :
    timer fm s true none now =
      (s, [Event.sem_take Timeout.HAL_SEMAPHORE_BLOCK_FOREVER true,
           Event.read_registers EAGLETREE_AIRSPEED_I2C_READ_CMD 2 false,
           Event.sem_give]) ∧
    bus_reads (timer fm s true none now).2 = 1 ∧
    gives (timer fm s true none now).2 = 1 ∧
    lock_after false (timer fm s true none now).2 = some false :=
  ⟨rfl, rfl, rfl, rfl⟩

/-- C8 (counterexample): with `count = 2^32 - 1`, a sampler call that obtains
the lock and reads the nonzero sample `1` leaves `count = 0`, not `count + 1`. -/
theorem C8_count_wraps_at_max :
    sample16 1 0 ≠ 0 ∧
    (timer binary32 (Driver.mk (B32.ofNat 5) 4294967295 0) true (some (1, 0))
      7).1.airspeed_value_count = 0 ∧
    (timer binary32 (Driver.mk (B32.ofNat 5) 4294967295 0) true (some (1, 0))
      7).1.airspeed_value_count ≠ 4294967295 + 1 := by
  decide

/-- C8 (amended): a sampler call that obtains the lock and reads a nonzero
sample `v` at clock value `now` yields `sum' = sum + v` in `float`,
`count' = (count + 1) mod 2^32` (which is `count + 1` unless `count` is
`2^32 - 1`) and `last_sample_time_ms' = now`. -/
theorem C8_valid_sample_update (fm : FloatModel) (s : Driver fm) (val0 val1 now : Nat)
    (hnz : sample16 val0 val1 ≠ 0) :
    (timer fm s true (some (val0, val1)) now).1.airspeed_value_sum =
      fm.add s.airspeed_value_sum (fm.ofU16 (sample16 val0 val1)) ∧
    (timer fm s true (some (val0, val1)) now).1.airspeed_value_count =
      (s.airspeed_value_count + 1) % 2 ^ 32 ∧
    (s.airspeed_value_count < 2 ^ 32 - 1 →
      (timer fm s true (some (val0, val1)) now).1.airspeed_value_count =
        s.airspeed_value_count + 1) ∧
    (timer fm s true (some (val0, val1)) now).1.last_sample_time_ms = now := by
  rw [timer_valid fm s val0 val1 now hnz]
  refine ⟨rfl, rfl, ?_, rfl⟩
  intro hlt
  show (s.airspeed_value_count + 1) % 2 ^ 32 = s.airspeed_value_count + 1
  apply Nat.mod_eq_of_lt
  omega

/-- Witness of C8 (amended): the payload `(0x34, 0x12)` read at 1234 ms on an
accumulator holding three samples. -/
theorem C8_valid_sample_update_witness :
    sample16 0x34 0x12 ≠ 0 ∧
    ((timer binary32 (Driver.mk (B32.ofNat 30) 3 1000) true (some (0x34, 0x12))
        1234).1.airspeed_value_sum =
      binary32.add (B32.ofNat 30) (binary32.ofU16 (sample16 0x34 0x12)) ∧
    (timer binary32 (Driver.mk (B32.ofNat 30) 3 1000) true (some (0x34, 0x12))
        1234).1.airspeed_value_count = (3 + 1) % 2 ^ 32 ∧
    (3 < 2 ^ 32 - 1 →
      (timer binary32 (Driver.mk (B32.ofNat 30) 3 1000) true (some (0x34, 0x12))
        1234).1.airspeed_value_count = 3 + 1) ∧
    (timer binary32 (Driver.mk (B32.ofNat 30) 3 1000) true (some (0x34, 0x12))
        1234).1.last_sample_time_ms = 1234) :=
  ⟨by decide,
    C8_valid_sample_update binary32 (Driver.mk (B32.ofNat 30) 3 1000) 0x34 0x12 1234
      (by decide)⟩

/-- C9: for bytes `b0`, `b1` in `0..255` returned by the bus read (`b0` first),
the sample that `timer` decodes is `b0 + 256 * b1`, in `0..65535`, and it is zero
exactly when both bytes are zero: a call of `timer` that obtains the lock and
reads them folds `b0 + 256 * b1` into the sum, counts it and stamps the time,
unless both bytes are zero, in which case, and only then, it leaves the state
as it was. -/
theorem C9_sample16_little_endian (fm : FloatModel) (s : Driver fm) (b0 b1 now : Nat)
    (h0 : b0 < 256) (h1 : b1 < 256) :
    sample16 b0 b1 = b0 + 256 * b1 ∧
    sample16 b0 b1 ≤ 65535 ∧
    (sample16 b0 b1 = 0 ↔ b0 = 0 ∧ b1 = 0) ∧
    (timer fm s true (some (b0, b1)) now).1 =
      (if b0 = 0 ∧ b1 = 0 then s else
        { airspeed_value_sum := fm.add s.airspeed_value_sum (fm.ofU16 (b0 + 256 * b1)),
          airspeed_value_count := (s.airspeed_value_count + 1) % 2 ^ 32,
          last_sample_time_ms := now }) ∧
    ((timer fm s true (some (b0, b1)) now).1.airspeed_value_count =
        s.airspeed_value_count ↔ b0 = 0 ∧ b1 = 0) := by
  have hs := sample16_eq b0 b1 h0 h1
  refine ⟨hs, by omega, by omega, ?_, ?_⟩
  · by_cases hz : b0 = 0 ∧ b1 = 0
    · rw [if_pos hz, timer_zero fm s b0 b1 now (by omega)]
    · rw [if_neg hz, timer_valid fm s b0 b1 now (by omega), hs]
  · by_cases hz : b0 = 0 ∧ b1 = 0
    · rw [timer_zero fm s b0 b1 now (by omega)]
      exact ⟨fun _ => hz, fun _ => rfl⟩
    · rw [timer_valid fm s b0 b1 now (by omega)]
      constructor
      · intro h
        exfalso
        have h2 : (s.airspeed_value_count + 1) % 2 ^ 32 = s.airspeed_value_count := h
        omega
      · intro h
        exact absurd h hz

/-- Witness of C9: the payload `(0x34, 0x12)`, read at 1234 ms on an
accumulator holding three samples, is folded in as `0x1234`. -/
theorem C9_sample16_little_endian_witness :
    ((0x34 : Nat) < 256 ∧ (0x12 : Nat) < 256) ∧
    (sample16 0x34 0x12 = 0x34 + 256 * 0x12 ∧
     sample16 0x34 0x12 ≤ 65535 ∧
     (sample16 0x34 0x12 = 0 ↔ (0x34 : Nat) = 0 ∧ (0x12 : Nat) = 0) ∧
     (timer binary32 (Driver.mk (B32.ofNat 30) 3 1000) true (some (0x34, 0x12)) 1234).1 =
      (if (0x34 : Nat) = 0 ∧ (0x12 : Nat) = 0 then Driver.mk (B32.ofNat 30) 3 1000 else
        Driver.mk (binary32.add (B32.ofNat 30) (binary32.ofU16 (0x34 + 256 * 0x12)))
          ((3 + 1) % 2 ^ 32) 1234) ∧
     ((timer binary32 (Driver.mk (B32.ofNat 30) 3 1000) true (some (0x34, 0x12))
        1234).1.airspeed_value_count = 3 ↔ (0x34 : Nat) = 0 ∧ (0x12 : Nat) = 0)) :=
  ⟨⟨by decide, by decide⟩,
    C9_sample16_little_endian binary32 (Driver.mk (B32.ofNat 30) 3 1000) 0x34 0x12 1234
      (by decide) (by decide)⟩

/-- C10: lock balance. For every state and every lock, bus and clock outcome,
the calls of `timer` and of `get_differential_pressure` on the accumulator lock
are well bracketed and leave it free; the number of `give`s equals the number
of successful `take`s, which is one when the lock was obtained (and, for the
query, the staleness gate passed) and zero otherwise; and a query stopped by
the staleness gate makes no call on the lock at all. -/
theorem C10_lock_balance (fm : FloatModel) (s : Driver fm) (lockOk : Bool)
    (rd : Option (Nat × Nat)) (now : Nat) (p : fm.F) :
    (lock_after false (timer fm s lockOk rd now).2 = some false ∧
     takes (timer fm s lockOk rd now).2 = (if lockOk then 1 else 0) ∧
     gives (timer fm s lockOk rd now).2 = (if lockOk then 1 else 0)) ∧
    (lock_after false (get_differential_pressure fm s now lockOk p).trace = some false ∧
     takes (get_differential_pressure fm s now lockOk p).trace =
       (if elapsed_ms now s.last_sample_time_ms ≤ 100 ∧ lockOk = true then 1 else 0) ∧
     gives (get_differential_pressure fm s now lockOk p).trace =
       (if elapsed_ms now s.last_sample_time_ms ≤ 100 ∧ lockOk = true then 1 else 0) ∧
     (100 < elapsed_ms now s.last_sample_time_ms →
       (get_differential_pressure fm s now lockOk p).trace = [])) := by
  constructor
  · cases lockOk with
    | false => exact ⟨rfl, rfl, rfl⟩
    | true =>
      cases rd with
      | none => exact ⟨rfl, rfl, rfl⟩
      | some b =>
        obtain ⟨val0, val1⟩ := b
        by_cases hz : sample16 val0 val1 = 0
        · simp only [timer, Bool.not_true, Bool.false_eq_true, if_false, if_pos hz]
          exact ⟨rfl, rfl, rfl⟩
        · simp only [timer, Bool.not_true, Bool.false_eq_true, if_false, if_neg hz]
          exact ⟨rfl, rfl, rfl⟩
  · by_cases hg : elapsed_ms now s.last_sample_time_ms > 100
    · have hcond : ¬ (elapsed_ms now s.last_sample_time_ms ≤ 100 ∧ lockOk = true) :=
        fun h => absurd h.1 (by omega)
      have h : get_differential_pressure fm s now lockOk p =
          { ret := false, out := p, state := s, trace := [] } := by
        simp [get_differential_pressure, hg]
      rw [h, if_neg hcond]
      exact ⟨rfl, rfl, rfl, fun _ => rfl⟩
    · have hle : elapsed_ms now s.last_sample_time_ms ≤ 100 := by omega
      have hng : ¬ 100 < elapsed_ms now s.last_sample_time_ms := hg
      cases lockOk with
      | false =>
        have hcond : ¬ (elapsed_ms now s.last_sample_time_ms ≤ 100 ∧ false = true) :=
          fun h => Bool.noConfusion h.2
        have h : get_differential_pressure fm s now false p =
            { ret := false, out := p, state := s,
              trace := [Event.sem_take Timeout.HAL_SEMAPHORE_BLOCK_FOREVER false] } := by
          simp [get_differential_pressure, hg]
        rw [h, if_neg hcond]
        exact ⟨rfl, rfl, rfl, fun h => absurd h hng⟩
      | true =>
        have hcond : elapsed_ms now s.last_sample_time_ms ≤ 100 ∧ true = true := ⟨hle, rfl⟩
        by_cases hc : s.airspeed_value_count > 0
        · rw [get_differential_pressure_fresh fm s now p hle hc, if_pos hcond]
          exact ⟨rfl, rfl, rfl, fun h => absurd h hng⟩
        · rw [get_differential_pressure_empty fm s now p hle (by omega), if_pos hcond]
          exact ⟨rfl, rfl, rfl, fun h => absurd h hng⟩


/-- C11: when `timer` cannot obtain the accumulator lock it makes no bus read,
leaves `sum`, `count` and `last_sample_time_ms` as they were and does not give
the lock: its only call is the failed `take`. -/
theorem C11_lock_unavailable_skips (fm : FloatModel) (s : Driver fm)
    (rd : Option (Nat × Nat)) (now : Nat) :
    (timer fm s false rd now).1 = s ∧
    (timer fm s false rd now).2 =
      [Event.sem_take Timeout.HAL_SEMAPHORE_BLOCK_FOREVER false] ∧
    bus_reads (timer fm s false rd now).2 = 0 ∧
    gives (timer fm s false rd now).2 = 0 :=
  ⟨rfl, rfl, rfl, rfl⟩

/-- C12: for every state and every caller value, `get_temperature` returns
`false`, leaves `sum`, `count`, `last_sample_time_ms` and the caller's value as
they were, and makes no call on the lock or on the bus. -/
theorem C12_get_temperature_invalid (fm : FloatModel) (s : Driver fm) (temperature : fm.F) :
    (get_temperature fm s temperature).ret = false ∧
    (get_temperature fm s temperature).out = temperature ∧
    (get_temperature fm s temperature).state = s ∧
    (get_temperature fm s temperature).trace = [] :=
  ⟨rfl, rfl, rfl, rfl⟩

/-- C13 (counterexample): the handle is obtained, the device semaphore is taken
and `register_periodic_callback` fails (returns no handle); `init` returns
`true` all the same. -/
theorem C13_registration_failure_ignored :
    (init true true false).1 = true ∧
    Event.register_periodic_callback EAGLETREE_AIRSPEED_CONVERSION_INTERVAL false ∈
      (init true true false).2 := by
  decide

/-- C13 (amended): `init` returns `true` exactly when the bus device handle is
obtained and the device semaphore is taken, and `false` if either of the two
fails; the outcome of the periodic-callback registration is not consulted. -/
theorem C13_init_result (devOk devSemOk regOk : Bool) :
    (init devOk devSemOk regOk).1 = (devOk && devSemOk) ∧
    ((init devOk devSemOk regOk).1 = true ↔ devOk = true ∧ devSemOk = true) ∧
    (init devOk devSemOk regOk).1 = (init devOk devSemOk (!regOk)).1 := by
  cases devOk <;> cases devSemOk <;> cases regOk <;> decide

/-- C14 (counterexample): in the successful run of `init` the device semaphore
is given before `register_periodic_callback` is called: the registration is not
made while it is held, and the calls are not in the claimed order. -/
theorem C14_registration_after_give :
    (init true true true).1 = true ∧
    registers_while_held false (init true true true).2 = false ∧
    (init true true true).2 ≠
      [Event.get_device EAGLETREE_AIRSPEED_I2C_ADDR true,
       Event.dev_sem_take Timeout.HAL_SEMAPHORE_BLOCK_FOREVER true,
       Event.set_speed Speed.SPEED_LOW,
       Event.set_retries 2,
       Event.register_periodic_callback EAGLETREE_AIRSPEED_CONVERSION_INTERVAL true,
       Event.dev_sem_give,
       Event.sem_give] := by
  decide

/-- C14 (amended): in every successful run of `init` the calls are, in order:
get the device, take the device semaphore, set the speed low, set 2 retries,
give the device semaphore, register the callback with a period of 10000
microseconds (10 ms), and only then give the accumulator lock; the registration
is made after the device semaphore has been given back. -/
theorem C14_init_sequence (devOk devSemOk regOk : Bool)
    (h : (init devOk devSemOk regOk).1 = true) :
    (init devOk devSemOk regOk).2 =
      [Event.get_device EAGLETREE_AIRSPEED_I2C_ADDR true,
       Event.dev_sem_take Timeout.HAL_SEMAPHORE_BLOCK_FOREVER true,
       Event.set_speed Speed.SPEED_LOW,
       Event.set_retries 2,
       Event.dev_sem_give,
       Event.register_periodic_callback 10000 regOk,
       Event.sem_give] ∧
    registers_while_held false (init devOk devSemOk regOk).2 = false := by
  cases devOk <;> cases devSemOk <;> cases regOk <;> first | exact absurd h (by decide) | decide

/-- Witness of C14 (amended): the run in which every step succeeds. -/
theorem C14_init_sequence_witness :
    (init true true true).1 = true ∧
    ((init true true true).2 =
      [Event.get_device EAGLETREE_AIRSPEED_I2C_ADDR true,
       Event.dev_sem_take Timeout.HAL_SEMAPHORE_BLOCK_FOREVER true,
       Event.set_speed Speed.SPEED_LOW,
       Event.set_retries 2,
       Event.dev_sem_give,
       Event.register_periodic_callback 10000 true,
       Event.sem_give] ∧
    registers_while_held false (init true true true).2 = false) :=
  ⟨by decide, C14_init_sequence true true true (by decide)⟩

/-- C15 (counterexample): a call of `timer` that finds the lock unavailable has
asked for it with `HAL_SEMAPHORE_BLOCK_FOREVER`, not with a zero wait, which is
the very request `get_differential_pressure` makes. -/
theorem C15_timer_take_blocks_forever :
    take_modes (timer binary32 (Driver.empty binary32 0) false none 5).2 =
      [Timeout.HAL_SEMAPHORE_BLOCK_FOREVER] ∧
    take_modes (timer binary32 (Driver.empty binary32 0) false none 5).2 ≠ [Timeout.ms 0] ∧
    take_modes (timer binary32 (Driver.empty binary32 0) false none 5).2 =
      take_modes (get_differential_pressure binary32 (Driver.empty binary32 0) 5 false
        (B32.fin 0)).trace := by
  decide

/-- C15 (amended): `timer` asks for the accumulator lock once, with
`HAL_SEMAPHORE_BLOCK_FOREVER`, whatever the outcome; so does
`get_differential_pressure` whenever the staleness gate passes, and it asks for
nothing when the gate rejects. `timer` gives up the cycle, without a bus read,
only when that `take` returns `false`. -/
theorem C15_take_modes (fm : FloatModel) (s : Driver fm) (lockOk : Bool)
    (rd : Option (Nat × Nat)) (now : Nat) (p : fm.F) :
    take_modes (timer fm s lockOk rd now).2 = [Timeout.HAL_SEMAPHORE_BLOCK_FOREVER] ∧
    take_modes (get_differential_pressure fm s now lockOk p).trace =
      (if elapsed_ms now s.last_sample_time_ms ≤ 100
        then [Timeout.HAL_SEMAPHORE_BLOCK_FOREVER] else []) ∧
    (bus_reads (timer fm s lockOk rd now).2 = 0 ↔ lockOk = false) := by
  refine ⟨?_, ?_, ?_⟩
  · cases lockOk with
    | false => rfl
    | true =>
      cases rd with
      | none => rfl
      | some b =>
        obtain ⟨val0, val1⟩ := b
        by_cases hz : sample16 val0 val1 = 0 <;> simp [timer, hz, take_modes]
  · by_cases hg : elapsed_ms now s.last_sample_time_ms > 100
    · have hn : ¬ elapsed_ms now s.last_sample_time_ms ≤ 100 := by omega
      simp [get_differential_pressure, hg, hn, take_modes]
    · have hle : elapsed_ms now s.last_sample_time_ms ≤ 100 := by omega
      cases lockOk with
      | false => simp [get_differential_pressure, hg, hle, take_modes]
      | true =>
        by_cases hc : 0 < s.airspeed_value_count
        · rw [get_differential_pressure_fresh fm s now p hle hc, if_pos hle]
          rfl
        · rw [get_differential_pressure_empty fm s now p hle (by omega), if_pos hle]
          rfl
  · cases lockOk with
    | false => exact ⟨fun _ => rfl, fun _ => rfl⟩
    | true =>
      cases rd with
      | none => exact ⟨fun h => absurd h (Nat.succ_ne_zero 0), fun h => Bool.noConfusion h⟩
      | some b =>
        obtain ⟨val0, val1⟩ := b
        by_cases hz : sample16 val0 val1 = 0 <;> simp [timer, hz, bus_reads]

/-- C17: with the clock a `uint32_t`, a query made
`d` milliseconds after the last sample (`d < 2^32`, the clock value being
`(last + d) mod 2^32`, wrapped or not) computes an elapsed time equal to `d`,
which is `(now - last) mod 2^32`; it passes the gate and asks for the lock when
`d ≤ 100`, and is rejected, with no call on the lock, exactly when `100 < d`. -/
theorem C17_staleness_gate_wraps (fm : FloatModel) (s : Driver fm) (d : Nat) (lockOk : Bool)
    (p : fm.F) (hd : d < 2 ^ 32) :
    elapsed_ms ((s.last_sample_time_ms + d) % 2 ^ 32) s.last_sample_time_ms = d ∧
    ((elapsed_ms ((s.last_sample_time_ms + d) % 2 ^ 32) s.last_sample_time_ms : Nat) : Int) =
      ((((s.last_sample_time_ms + d) % 2 ^ 32 : Nat) : Int) -
        (s.last_sample_time_ms : Int)) % 2 ^ 32 ∧
    (d ≤ 100 →
      take_attempts (get_differential_pressure fm s
        ((s.last_sample_time_ms + d) % 2 ^ 32) lockOk p).trace = 1) ∧
    (100 < d →
      get_differential_pressure fm s ((s.last_sample_time_ms + d) % 2 ^ 32) lockOk p =
        { ret := false, out := p, state := s, trace := [] }) ∧
    ((get_differential_pressure fm s
        ((s.last_sample_time_ms + d) % 2 ^ 32) lockOk p).trace = [] ↔ 100 < d) := by
  have hel : elapsed_ms ((s.last_sample_time_ms + d) % 2 ^ 32) s.last_sample_time_ms = d := by
    unfold elapsed_ms
    omega
  have hint : ((elapsed_ms ((s.last_sample_time_ms + d) % 2 ^ 32) s.last_sample_time_ms : Nat)
      : Int) = ((((s.last_sample_time_ms + d) % 2 ^ 32 : Nat) : Int) -
        (s.last_sample_time_ms : Int)) % 2 ^ 32 := by
    rw [hel]
    omega
  refine ⟨hel, hint, ?_, ?_, ?_⟩
  · intro hle
    have hfresh : elapsed_ms ((s.last_sample_time_ms + d) % 2 ^ 32)
        s.last_sample_time_ms ≤ 100 := by omega
    cases lockOk with
    | false =>
      rw [get_differential_pressure_not_obtained fm s _ p hfresh]
      rfl
    | true =>
      by_cases hc : 0 < s.airspeed_value_count
      · rw [get_differential_pressure_fresh fm s _ p hfresh hc]
        rfl
      · rw [get_differential_pressure_empty fm s _ p hfresh (by omega)]
        rfl
  · intro hgt
    exact get_differential_pressure_stale fm s _ lockOk p (by omega)
  · constructor
    · intro htr
      by_contra hnot
      have hfresh : elapsed_ms ((s.last_sample_time_ms + d) % 2 ^ 32)
          s.last_sample_time_ms ≤ 100 := by omega
      cases lockOk with
      | false =>
        rw [get_differential_pressure_not_obtained fm s _ p hfresh] at htr
        exact List.noConfusion htr
      | true =>
        by_cases hc : 0 < s.airspeed_value_count
        · rw [get_differential_pressure_fresh fm s _ p hfresh hc] at htr
          exact List.noConfusion htr
        · rw [get_differential_pressure_empty fm s _ p hfresh (by omega)] at htr
          exact List.noConfusion htr
    · intro hgt
      rw [get_differential_pressure_stale fm s _ lockOk p (by omega)]

/-- Witness of C17: the last sample was taken at `2^32 - 30` ms and the query
comes 100 ms later, when the clock has wrapped to 70 ms: it passes the gate. -/
theorem C17_staleness_gate_wraps_witness :
    (100 : Nat) < 2 ^ 32 ∧
    (elapsed_ms ((4294967266 + 100) % 2 ^ 32) 4294967266 = 100 ∧
    ((elapsed_ms ((4294967266 + 100) % 2 ^ 32) 4294967266 : Nat) : Int) =
      ((((4294967266 + 100) % 2 ^ 32 : Nat) : Int) - ((4294967266 : Nat) : Int)) % 2 ^ 32 ∧
    ((100 : Nat) ≤ 100 →
      take_attempts (get_differential_pressure binary32 (Driver.mk (B32.ofNat 30) 3 4294967266)
        ((4294967266 + 100) % 2 ^ 32) true (B32.fin 0)).trace = 1) ∧
    ((100 : Nat) < 100 →
      get_differential_pressure binary32 (Driver.mk (B32.ofNat 30) 3 4294967266)
        ((4294967266 + 100) % 2 ^ 32) true (B32.fin 0) =
        QueryResult.mk false (B32.fin 0) (Driver.mk (B32.ofNat 30) 3 4294967266) []) ∧
    ((get_differential_pressure binary32 (Driver.mk (B32.ofNat 30) 3 4294967266)
        ((4294967266 + 100) % 2 ^ 32) true (B32.fin 0)).trace = [] ↔ (100 : Nat) < 100)) :=
  ⟨by decide,
    C17_staleness_gate_wraps binary32 (Driver.mk (B32.ofNat 30) 3 4294967266) 100 true
      (B32.fin 0) (by decide)⟩

/-- C18: failure atomicity of the query. Whenever `get_differential_pressure`
returns `false` (stale, lock not obtained or empty accumulator), `sum`, `count`,
`last_sample_time_ms` and the caller's value are as they were; and in every
case, valid or not, `last_sample_time_ms` is as it was. -/
theorem C18_query_failure_atomic (fm : FloatModel) (s : Driver fm) (now : Nat) (lockOk : Bool)
    (p : fm.F) :
    ((get_differential_pressure fm s now lockOk p).ret = false →
      (get_differential_pressure fm s now lockOk p).state = s ∧
      (get_differential_pressure fm s now lockOk p).out = p) ∧
    (get_differential_pressure fm s now lockOk p).state.last_sample_time_ms =
      s.last_sample_time_ms := by
  by_cases hg : elapsed_ms now s.last_sample_time_ms > 100
  · rw [get_differential_pressure_stale fm s now lockOk p hg]
    exact ⟨fun _ => ⟨rfl, rfl⟩, rfl⟩
  · have hle : elapsed_ms now s.last_sample_time_ms ≤ 100 := by omega
    cases lockOk with
    | false =>
      rw [get_differential_pressure_not_obtained fm s now p hle]
      exact ⟨fun _ => ⟨rfl, rfl⟩, rfl⟩
    | true =>
      by_cases hc : 0 < s.airspeed_value_count
      · rw [get_differential_pressure_fresh fm s now p hle hc]
        exact ⟨fun h => Bool.noConfusion h, rfl⟩
      · rw [get_differential_pressure_empty fm s now p hle (by omega)]
        exact ⟨fun _ => ⟨rfl, rfl⟩, rfl⟩

/-- Witness of C18: a fresh query on an accumulator holding three samples that
does not obtain the lock. -/
theorem C18_query_failure_atomic_witness :
    (get_differential_pressure binary32 (Driver.mk (B32.ofNat 30) 3 1000) 1040 false
      (B32.ofNat 7)).ret = false ∧
    ((get_differential_pressure binary32 (Driver.mk (B32.ofNat 30) 3 1000) 1040 false
      (B32.ofNat 7)).state = Driver.mk (B32.ofNat 30) 3 1000 ∧
     (get_differential_pressure binary32 (Driver.mk (B32.ofNat 30) 3 1000) 1040 false
      (B32.ofNat 7)).out = B32.ofNat 7) :=
  ⟨by decide,
    (C18_query_failure_atomic binary32 (Driver.mk (B32.ofNat 30) 3 1000) 1040 false
      (B32.ofNat 7)).1 (by decide)⟩

end EagleTree
